import Mathlib

set_option maxRecDepth 8192

/-!
Verification of the iosocks tunnelling proxy (isocks.c client / osocks.c server).

Shallow embedding conventions:
* bytes are `Nat` values (< 256 where it matters, stated as hypotheses);
* buffers are `List Nat`; `memcpy`/`strcpy` into a buffer become `writeAt`;
* the stream cipher is the black-box keystream primitive of the spec: a
  function `Nat → Nat` from stream position to keystream byte, applied by
  xor (`encryptWith`/`decryptWith`); `enc_init` seeding is a parameter
  `keystream : List Nat → Nat → Nat` from the 64-byte key;
* `md5` is the external collaborator `md5(data, len, out16)`, modelled as a
  parameter `md5 : List Nat → List Nat` whose outputs have length 16
  (hypothesis `Md5Like` where needed);
* each event-loop callback case becomes a pure step function from the bytes
  delivered by `recv` (and the result of the synchronous `send`) to the
  action the handler performs and the successor connection state.
-/

namespace IoSocks

/-- Connection buffer size, `BUF_SIZE` in isocks.c / osocks.c. -/
def BUF_SIZE : Nat := 8192

/-- The 32-bit handshake magic constant, `MAGIC` in isocks.c / osocks.c. -/
def MAGIC : Nat := 0x526f6e61

/-- Big-endian (network order) byte encoding of a 32-bit value, as stored by
`*((uint32_t *)buf) = htonl(x)`. -/
def be32 (x : Nat) : List Nat :=
  [x / 2 ^ 24 % 256, x / 2 ^ 16 % 256, x / 2 ^ 8 % 256, x % 256]

/-- `ntohl(*(uint32_t *)buf)`: read four bytes in network order. -/
def ntohl (l : List Nat) : Nat :=
  l.getD 0 0 * 2 ^ 24 + l.getD 1 0 * 2 ^ 16 + l.getD 2 0 * 2 ^ 8 + l.getD 3 0

/-- `memcpy(buf + off, data, data.length)`: overwrite `buf` at offset `off`
with `data` (lengths are preserved when the write fits). -/
def writeAt (buf : List Nat) (off : Nat) (data : List Nat) : List Nat :=
  buf.take off ++ data ++ buf.drop (off + data.length)

/-- `io_encrypt(buf, n, evp)`: xor the buffer with the keystream, position by
position.  The RC4-family cipher of encrypt.c is the spec's black-box
keystream function; one direction's stream starts at position 0. -/
def encryptWith (ks : Nat → Nat) (buf : List Nat) : List Nat :=
  List.zipWith (fun i b => b ^^^ ks i) (List.range buf.length) buf

/-- `io_decrypt(buf, n, evp)`: the keystream xor is its own inverse, so
decryption applies the same operation. -/
def decryptWith (ks : Nat → Nat) (buf : List Nat) : List Nat :=
  encryptWith ks buf

/-- PSK truncation performed by both main() functions: a key longer than 256
bytes is used only through its first 256 bytes (`key_len = 256`). -/
def truncPSK (P : List Nat) : List Nat :=
  P.take 256

/-- The md5 collaborator contract: `md5(data, len, out)` always produces 16
output bytes. -/
def Md5Like (md5 : List Nat → List Nat) : Prop :=
  ∀ l, (md5 l).length = 16

/-- The four chained MD5 calls shared by isocks.c (lines 512-515) and
osocks.c (lines 1441-1444): `k[0..16] = MD5(iv ‖ psk)`, then each further
16-byte block hashes the key prefix built so far. -/
def deriveKey (md5 : List Nat → List Nat) (iv psk : List Nat) : List Nat :=
  let k0 := md5 (iv ++ psk)
  let k1 := md5 k0
  let k2 := md5 (k0 ++ k1)
  let k3 := md5 (k0 ++ k1 ++ k2)
  k0 ++ k1 ++ k2 ++ k3

/-- Client-side key derivation (isocks.c local_read_cb, NEGO_SENT case):
the fresh 236-byte IV is hashed together with the (truncated) PSK. -/
def clientDeriveKey (md5 : List Nat → List Nat) (R P : List Nat) : List Nat :=
  deriveKey md5 R (truncPSK P)

/-- Server-side key derivation (osocks.c local_read_cb, CLOSED case): bytes
276..512 of the received frame are copied out as the IV and hashed with the
listener's (truncated) PSK. -/
def serverDeriveKey (md5 : List Nat → List Nat) (frame P : List Nat) : List Nat :=
  deriveKey md5 ((frame.drop 276).take 236) (truncPSK P)

/-- The plaintext of the first 276 bytes of the inner request, as assembled
by isocks.c lines 517-521: zero-fill, magic at offset 0, NUL-terminated host
at offset 4, NUL-terminated port at offset 261. -/
def innerPlain (host port : List Nat) : List Nat :=
  let b0 := List.replicate 276 0
  let b1 := writeAt b0 0 (be32 MAGIC)
  let b2 := writeAt b1 4 (host ++ [0])
  writeAt b2 261 (port ++ [0])

/-- The 512-byte inner request frame as sent: the first 276 bytes pass
through `io_encrypt`, the trailing 236 IV bytes are appended in the clear
(isocks.c lines 517-523). -/
def clientFrame (ks : Nat → Nat) (host port R : List Nat) : List Nat :=
  encryptWith ks (innerPlain host port) ++ R

/-- The complete client handshake frame construction: the cipher is seeded
with the key derived from the IV `R` and the selected server's PSK `P`. -/
def clientBuild (keystream : List Nat → Nat → Nat) (md5 : List Nat → List Nat)
    (host port R P : List Nat) : List Nat :=
  clientFrame (keystream (clientDeriveKey md5 R P)) host port R

theorem length_encryptWith (ks : Nat → Nat) (buf : List Nat) :
    (encryptWith ks buf).length = buf.length := by
  simp [encryptWith]

theorem length_writeAt (buf data : List Nat) (off : Nat)
    (h : off + data.length ≤ buf.length) :
    (writeAt buf off data).length = buf.length := by
  simp only [writeAt, List.length_append, List.length_take, List.length_drop]
  omega

theorem be32_MAGIC : be32 MAGIC = [0x52, 0x6f, 0x6e, 0x61] := by decide

theorem writeAt_split (a b c : List Nat) (off : Nat) (hoff : a.length = off) :
    writeAt (a ++ b) off c = a ++ (c ++ b.drop c.length) := by
  subst hoff
  unfold writeAt
  rw [List.take_left, List.drop_append, List.append_assoc]

theorem innerPlain_eq (host port : List Nat)
    (hhost : host.length ≤ 256) (hport : port.length ≤ 14) :
    innerPlain host port =
      be32 MAGIC ++ host ++ [0] ++ List.replicate (256 - host.length) 0 ++
        port ++ [0] ++ List.replicate (14 - port.length) 0 := by
  have hb1 : writeAt (List.replicate 276 0) 0 (be32 MAGIC) =
      be32 MAGIC ++ List.replicate 272 0 := by
    have h := writeAt_split [] (List.replicate 276 (0 : Nat)) (be32 MAGIC) 0 rfl
    simp only [List.nil_append] at h
    rw [h, List.drop_replicate, be32_MAGIC]
    rfl
  have hb2 : writeAt (be32 MAGIC ++ List.replicate 272 0) 4 (host ++ [0]) =
      be32 MAGIC ++ ((host ++ [0]) ++ List.replicate (271 - host.length) 0) := by
    have h := writeAt_split (be32 MAGIC) (List.replicate 272 (0 : Nat))
      (host ++ [0]) 4 (by rw [be32_MAGIC]; rfl)
    rw [h, List.drop_replicate]
    have e : (host ++ [0]).length = host.length + 1 := by simp
    rw [e, show 272 - (host.length + 1) = 271 - host.length from by omega]
  have hsplit : List.replicate (271 - host.length) (0 : Nat) =
      List.replicate (256 - host.length) 0 ++ List.replicate 15 0 := by
    rw [← List.replicate_add,
      show 256 - host.length + 15 = 271 - host.length from by omega]
  have hshape : be32 MAGIC ++ ((host ++ [0]) ++
        List.replicate (271 - host.length) (0 : Nat)) =
      (be32 MAGIC ++ ((host ++ [0]) ++ List.replicate (256 - host.length) 0)) ++
        List.replicate 15 0 := by
    rw [hsplit]
    simp [List.append_assoc]
  have hA : (be32 MAGIC ++ ((host ++ [0]) ++
      List.replicate (256 - host.length) (0 : Nat))).length = 261 := by
    rw [be32_MAGIC]
    simp
    omega
  have hb3 : writeAt (be32 MAGIC ++ ((host ++ [0]) ++
        List.replicate (271 - host.length) 0)) 261 (port ++ [0]) =
      (be32 MAGIC ++ ((host ++ [0]) ++ List.replicate (256 - host.length) 0)) ++
        ((port ++ [0]) ++ List.replicate (14 - port.length) 0) := by
    have h := writeAt_split
      (be32 MAGIC ++ ((host ++ [0]) ++ List.replicate (256 - host.length) 0))
      (List.replicate 15 (0 : Nat)) (port ++ [0]) 261 hA
    rw [hshape, h, List.drop_replicate]
    have e : (port ++ [0]).length = port.length + 1 := by simp
    rw [e, show 15 - (port.length + 1) = 14 - port.length from by omega]
  show writeAt (writeAt (writeAt (List.replicate 276 0) 0 (be32 MAGIC)) 4
      (host ++ [0])) 261 (port ++ [0]) = _
  rw [hb1, hb2, hb3]
  simp [List.append_assoc]

theorem innerPlain_length (host port : List Nat)
    (hhost : host.length ≤ 256) (hport : port.length ≤ 14) :
    (innerPlain host port).length = 276 := by
  rw [innerPlain_eq host port hhost hport, be32_MAGIC]
  simp
  omega

/-- Claim C1: for every 236-byte IV `R` and every PSK `P` (used through its
first 256 bytes), the key the server derives from the frame the client sent
(the clear trailing IV bytes concatenated with its own copy of the PSK, then
the chained-MD5 expansion) equals the key the client derived; key derivation
is the function `clientDeriveKey` of `(R, P)` alone, hence deterministic. -/
theorem client_server_key_agree (keystream : List Nat → Nat → Nat)
    (md5 : List Nat → List Nat) (_hmd5 : Md5Like md5) (host port R P : List Nat)
    (hhost : host.length ≤ 256) (hport : port.length ≤ 14)
    (hR : R.length = 236) :
    serverDeriveKey md5 (clientBuild keystream md5 host port R P) P =
      clientDeriveKey md5 R P := by
  have henc : (encryptWith (keystream (clientDeriveKey md5 R P))
      (innerPlain host port)).length = 276 := by
    rw [length_encryptWith, innerPlain_length host port hhost hport]
  unfold serverDeriveKey clientBuild clientFrame
  rw [List.drop_left' henc]
  rw [show (236 : Nat) = R.length from hR.symm, List.take_length]
  rfl

/-- All-zero keystream, used to instantiate witnesses. -/
def ks0 : List Nat → Nat → Nat := fun _ _ => 0

/-- Constant stand-in for the md5 collaborator, used to instantiate
witnesses; it satisfies the 16-byte output contract. -/
def md5z : List Nat → List Nat := fun _ => List.replicate 16 0

theorem md5z_contract : Md5Like md5z := by
  intro l
  simp [md5z]

/-- Witness for C1: concrete IV, PSK, host and port, with a trivial
keystream and constant md5 satisfying the hypotheses. -/
theorem client_server_key_agree_witness :
    serverDeriveKey md5z
        (clientBuild ks0 md5z [49] [56, 48] (List.replicate 236 7) [1, 2, 3])
        [1, 2, 3] =
      clientDeriveKey md5z (List.replicate 236 7) [1, 2, 3] :=
  client_server_key_agree ks0 md5z md5z_contract
    [49] [56, 48] (List.replicate 236 7) [1, 2, 3]
    (by decide) (by decide) (by simp)

/-- Claim C2: the 512-byte inner request frame built for an accepted CONNECT
request carries the magic `0x526f6e61` in network order at bytes 0..3, the
NUL-terminated host at bytes 4..260, the NUL-terminated decimal port at
bytes 261..275 (each field zero-padded by the bzero), with exactly the
first 276 bytes passed through the cipher seeded by the derived key and the
236 IV bytes appended in the clear at bytes 276..511. -/
theorem inner_frame_layout (keystream : List Nat → Nat → Nat)
    (md5 : List Nat → List Nat) (host port R P : List Nat)
    (hhost : host.length ≤ 256) (hport : port.length ≤ 14)
    (hR : R.length = 236) :
    (clientBuild keystream md5 host port R P).length = 512 ∧
    (clientBuild keystream md5 host port R P).take 276 =
      encryptWith (keystream (clientDeriveKey md5 R P)) (innerPlain host port) ∧
    (clientBuild keystream md5 host port R P).drop 276 = R ∧
    (innerPlain host port).take 4 = [0x52, 0x6f, 0x6e, 0x61] ∧
    ((innerPlain host port).drop 4).take 257 =
      host ++ [0] ++ List.replicate (256 - host.length) 0 ∧
    ((innerPlain host port).drop 261).take 15 =
      port ++ [0] ++ List.replicate (14 - port.length) 0 := by
  have henc : (encryptWith (keystream (clientDeriveKey md5 R P))
      (innerPlain host port)).length = 276 := by
    rw [length_encryptWith, innerPlain_length host port hhost hport]
  have hplain : innerPlain host port =
      be32 MAGIC ++ (host ++ ([0] ++ (List.replicate (256 - host.length) 0 ++
        (port ++ ([0] ++ List.replicate (14 - port.length) 0))))) := by
    rw [innerPlain_eq host port hhost hport]
    simp [List.append_assoc]
  refine ⟨?_, ?_, ?_, ?_, ?_, ?_⟩
  · unfold clientBuild clientFrame
    rw [List.length_append, henc, hR]
  · unfold clientBuild clientFrame
    exact List.take_left' henc
  · unfold clientBuild clientFrame
    exact List.drop_left' henc
  · rw [hplain, List.take_left' (by rw [be32_MAGIC]; rfl), be32_MAGIC]
  · have hd : (innerPlain host port).drop 4 =
        (host ++ [0] ++ List.replicate (256 - host.length) 0) ++
          (port ++ ([0] ++ List.replicate (14 - port.length) 0)) := by
      rw [hplain, List.drop_left' (by rw [be32_MAGIC]; rfl)]
      simp [List.append_assoc]
    rw [hd]
    exact List.take_left' (by simp; omega)
  · have hd : (innerPlain host port).drop 261 =
        port ++ [0] ++ List.replicate (14 - port.length) 0 := by
      rw [innerPlain_eq host port hhost hport]
      have hshape : be32 MAGIC ++ host ++ [0] ++
            List.replicate (256 - host.length) 0 ++ port ++ [0] ++
            List.replicate (14 - port.length) (0 : Nat) =
          (be32 MAGIC ++ host ++ [0] ++ List.replicate (256 - host.length) 0) ++
            (port ++ [0] ++ List.replicate (14 - port.length) 0) := by
        simp [List.append_assoc]
      rw [hshape]
      exact List.drop_left' (by rw [be32_MAGIC]; simp; omega)
    rw [hd]
    exact List.take_of_length_le (by simp; omega)

/-- Witness for C2: concrete host "1", port "8", IV of 236 sevens, empty
PSK; the length and clear-IV conjuncts of the layout theorem instantiated. -/
theorem inner_frame_layout_witness :
    (clientBuild ks0 md5z [49] [56] (List.replicate 236 7) []).length = 512 ∧
    (clientBuild ks0 md5z [49] [56] (List.replicate 236 7) []).drop 276 =
      List.replicate 236 7 :=
  ⟨(inner_frame_layout ks0 md5z [49] [56] (List.replicate 236 7) []
      (by decide) (by decide) (by simp)).1,
   (inner_frame_layout ks0 md5z [49] [56] (List.replicate 236 7) []
      (by decide) (by decide) (by simp)).2.2.1⟩

/-- Client connection states, the `state_t` enum of isocks.c. -/
inductive CState where
  | cCLOSED
  | cNEGO_RCVD
  | cNEGO_ERR
  | cNEGO_SENT
  | cCMD_RCVD
  | cCMD_ERR
  | cCONNECTED
  | cREQ_SENT
  | cREP_RCVD
  | cREQ_ERR
  | cESTAB
  | cCLOSE_WAIT
deriving DecidableEq, Repr

/-- Server connection states, the `state_t` enum of osocks.c. -/
inductive SState where
  | sCLOSED
  | sREQ_RCVD
  | sREQ_ERR
  | sCONNECTED
  | sESTAB
  | sCLOSE_WAIT
deriving DecidableEq, Repr

/-- C-string read from a buffer at offset `off`: bytes up to the first NUL,
capped at `len` bytes because the handler force-writes a NUL at the cap
(`rx_buf[260] = 0`, `rx_buf[275] = 0` in osocks.c). -/
def cstrAt (buf : List Nat) (off len : Nat) : List Nat :=
  ((buf.drop off).take len).takeWhile (fun b => b != 0)

/-- What the server's CLOSED-state read handler does with the connection:
`closeNoReply` is `close(conn->sock_local); mem_delete(conn)` with nothing
sent and no timer started; `reply` would be queueing a frame for the peer
(this handler never does); `resolve` is launching the asynchronous DNS
query for the extracted host and port. -/
inductive ServerAction where
  | closeNoReply : ServerAction
  | reply (frame : List Nat) : ServerAction
  | resolve (host port : List Nat) : ServerAction
deriving DecidableEq, Repr

/-- The decrypted first 276 bytes of a received inner request: the key is
derived from the clear trailing IV bytes plus the listener's PSK, then
`io_decrypt(rx_buf, 276, ...)` is applied (osocks.c lines 1439-1446). -/
def serverPlain (keystream : List Nat → Nat → Nat) (md5 : List Nat → List Nat)
    (P data : List Nat) : List Nat :=
  decryptWith (keystream (serverDeriveKey md5 data P)) (data.take 276)

/-- osocks.c local_read_cb, CLOSED case: a read that does not deliver
exactly 512 bytes drops the connection; otherwise the key is derived, the
first 276 bytes are decrypted and the magic checked; a mismatch also drops
the connection ("illegal client"), with no reply in either case; on a match
the host and port C-strings are extracted and resolution starts. -/
def serverClosedStep (keystream : List Nat → Nat → Nat)
    (md5 : List Nat → List Nat) (P data : List Nat) : ServerAction :=
  if data.length ≠ 512 then ServerAction.closeNoReply
  else if ntohl ((serverPlain keystream md5 P data).take 4) ≠ MAGIC then
    ServerAction.closeNoReply
  else
    ServerAction.resolve (cstrAt (serverPlain keystream md5 P data) 4 256)
      (cstrAt (serverPlain keystream md5 P data) 261 14)

/-- Claim C4: in server state CLOSED only a read of exactly 512 bytes is
processed (key derivation, decryption and the magic check decide what
happens next); any other byte count — 511 and 513 in particular — makes the
handler close the local socket and free the CCB without any reply. -/
theorem server_reads_exactly_512 (keystream : List Nat → Nat → Nat)
    (md5 : List Nat → List Nat) (P : List Nat) :
    (∀ data : List Nat, data.length ≠ 512 →
      serverClosedStep keystream md5 P data = ServerAction.closeNoReply) ∧
    (∀ data : List Nat, data.length = 512 →
      serverClosedStep keystream md5 P data =
        if ntohl ((serverPlain keystream md5 P data).take 4) = MAGIC then
          ServerAction.resolve (cstrAt (serverPlain keystream md5 P data) 4 256)
            (cstrAt (serverPlain keystream md5 P data) 261 14)
        else ServerAction.closeNoReply) := by
  constructor
  · intro data h
    simp [serverClosedStep, h]
  · intro data h
    by_cases hm : ntohl ((serverPlain keystream md5 P data).take 4) = MAGIC
    · simp [serverClosedStep, h, hm]
    · simp [serverClosedStep, h, hm]

/-- Witness for C4: reads of 511 and 513 zero bytes are rejected, a read of
512 zero bytes reaches the magic check. -/
theorem server_reads_exactly_512_witness :
    serverClosedStep ks0 md5z [] (List.replicate 511 0) =
      ServerAction.closeNoReply ∧
    serverClosedStep ks0 md5z [] (List.replicate 513 0) =
      ServerAction.closeNoReply ∧
    serverClosedStep ks0 md5z [] (List.replicate 512 0) =
      (if ntohl ((serverPlain ks0 md5z [] (List.replicate 512 0)).take 4) =
          MAGIC then
        ServerAction.resolve
          (cstrAt (serverPlain ks0 md5z [] (List.replicate 512 0)) 4 256)
          (cstrAt (serverPlain ks0 md5z [] (List.replicate 512 0)) 261 14)
      else ServerAction.closeNoReply) :=
  ⟨(server_reads_exactly_512 ks0 md5z []).1 _ (by simp),
   (server_reads_exactly_512 ks0 md5z []).1 _ (by simp),
   (server_reads_exactly_512 ks0 md5z []).2 _ (by simp)⟩

/-- Counterexample for C3: a 512-byte all-zero frame decrypts (here under
the zero keystream) to a plaintext whose first word is 0, not the magic;
the server handler's result is `closeNoReply` — `close` plus `mem_delete`
with no error frame queued and no CLOSE_WAIT linger timer — contradicting
the claim that a magic mismatch is answered with a protocol error frame and
a 1-second linger.  (The handler can return a `reply` action in no branch;
the 4-byte encrypted-zeros frame `[0,0,0,0]` that the DNS-failure path
would send is shown distinct for emphasis.) -/
theorem server_magic_mismatch_closes_silently :
    serverClosedStep ks0 md5z [] (List.replicate 512 0) =
      ServerAction.closeNoReply ∧
    ServerAction.closeNoReply ≠ ServerAction.reply [0, 0, 0, 0] := by
  constructor
  · decide
  · decide

/-- Contents of `rx_buf` after `bzero(rx_buf, 257)` and a recv that
delivered `data` (isocks.c CLOSED case): received bytes first, zeroed
positions up to index 256, whatever the buffer held before (`junk`)
beyond.  The scan below never reads past index 256 because NMETHODS is one
byte. -/
def greetingBuf (data : List Nat) (junk : Nat → Nat) : Nat → Nat := fun j =>
  if j < data.length then data.getD j 0 else if j < 257 then 0 else junk j

/-- The negotiation check of isocks.c local_read_cb (CLOSED): the version
byte must be 0x05 and scanning the NMETHODS slots starting at index 2 must
hit a 0x00 (no-auth) byte. -/
def negoAccept (b : Nat → Nat) : Bool :=
  (b 0 == 5) && (List.range (b 1)).any (fun i => b (2 + i) == 0)

/-- isocks.c local_read_cb, CLOSED case: the 2-byte reply and next state;
`05 00` and NEGO_RCVD on success, `05 ff` and NEGO_ERR otherwise. -/
def negoStep (data : List Nat) (junk : Nat → Nat) : List Nat × CState :=
  if negoAccept (greetingBuf data junk) then ([5, 0], CState.cNEGO_RCVD)
  else ([5, 0xff], CState.cNEGO_ERR)

/-- Claim C9: because the first 257 buffer bytes are zero-filled before the
greeting is read, a greeting whose declared NMETHODS exceeds the method
bytes actually received scans the unreceived slots as 0x00, so a version
0x05 greeting is accepted with reply `05 00` even when every received
method byte is nonzero. -/
theorem nego_zero_fill_accepts (data : List Nat) (junk : Nat → Nat)
    (hlen : 2 ≤ data.length) (hver : data.getD 0 0 = 5)
    (hnm : data.getD 1 0 ≤ 255) (hover : data.length - 2 < data.getD 1 0)
    (_hnz : ∀ i, i < data.length → 2 ≤ i → data.getD i 0 ≠ 0) :
    negoStep data junk = ([5, 0], CState.cNEGO_RCVD) := by
  have hb0 : greetingBuf data junk 0 = 5 := by
    unfold greetingBuf
    rw [if_pos (by omega)]
    exact hver
  have hb1 : greetingBuf data junk 1 = data.getD 1 0 := by
    unfold greetingBuf
    rw [if_pos (by omega)]
  have hbL : greetingBuf data junk (2 + (data.length - 2)) = 0 := by
    unfold greetingBuf
    rw [if_neg (by omega), if_pos (by omega)]
  have hacc : negoAccept (greetingBuf data junk) = true := by
    unfold negoAccept
    rw [Bool.and_eq_true, hb0, hb1]
    refine ⟨by simp, ?_⟩
    rw [List.any_eq_true]
    exact ⟨data.length - 2, List.mem_range.mpr (by omega), by simp [hbL]⟩
  simp [negoStep, hacc]

/-- Witness for C9: greeting `05 03 07` declares three methods but delivers
only the nonzero method 0x07; the zero-filled slots make it pass. -/
theorem nego_zero_fill_accepts_witness :
    negoStep [5, 3, 7] (fun _ => 9) = ([5, 0], CState.cNEGO_RCVD) :=
  nego_zero_fill_accepts [5, 3, 7] (fun _ => 9) (by decide) (by decide)
    (by decide) (by decide) (by decide)

/-- Contents of `rx_buf` after `bzero(rx_buf, 263)` and a recv of `data` in
state NEGO_SENT; the parse never reads past index 261. -/
def requestBuf (data : List Nat) (junk : Nat → Nat) : Nat → Nat := fun j =>
  if j < data.length then data.getD j 0 else if j < 263 then 0 else junk j

/-- ATYP values the client recognises: 0x01 IPv4, 0x03 DOMAIN, 0x04 IPv6. -/
def atypKnown (b : Nat → Nat) : Bool :=
  (b 3 == 1) || (b 3 == 3) || (b 3 == 4)

/-- The sequential error assignment of isocks.c local_read_cb (NEGO_SENT):
a version byte other than 0x05 sets error 1, a command other than CONNECT
then overwrites it with 2, an unknown ATYP finally overwrites with 3, so a
later failed check wins. -/
def cmdError (b : Nat → Nat) : Nat :=
  let e1 := if b 0 ≠ 5 then 1 else 0
  let e2 := if b 1 ≠ 1 then 2 else e1
  if atypKnown b then e2 else 3

/-- The SOCKS5 REP byte chosen for a nonzero error (isocks.c lines
549-562): error 2 gives 0x07, error 3 gives 0x08, anything else 0x01. -/
def repOf (e : Nat) : Nat :=
  if e = 2 then 7 else if e = 3 then 8 else 1

/-- The 10-byte SOCKS5 reply frame built on the error path: `bzero` of ten
bytes then VER=5, REP, RSV=0, ATYP=1. -/
def errFrame (rep : Nat) : List Nat :=
  [5, rep, 0, 1, 0, 0, 0, 0, 0, 0]

/-- Decision taken by the request handler: dial the randomly selected
upstream (error 0) or queue a SOCKS5 error reply. -/
inductive CmdAction where
  | connectUpstream : CmdAction
  | errReply (frame : List Nat) : CmdAction
deriving DecidableEq, Repr

/-- isocks.c local_read_cb, NEGO_SENT case, decision part: error 0 proceeds
to the upstream dial in state CMD_RCVD; otherwise the 10-byte error reply
is queued and the state becomes CMD_ERR. -/
def cmdStep (b : Nat → Nat) : CmdAction × CState :=
  if cmdError b = 0 then (CmdAction.connectUpstream, CState.cCMD_RCVD)
  else (CmdAction.errReply (errFrame (repOf (cmdError b))), CState.cCMD_ERR)

/-- Claim C10: when a request is invalid in several ways the later check
picks the REP byte: an unknown ATYP yields 0x08 whatever the command and
version; a known ATYP with a non-CONNECT command yields 0x07 whatever the
version; only a lone bad version yields 0x01. -/
theorem later_check_wins (b : Nat → Nat) :
    (atypKnown b = false →
      cmdStep b = (CmdAction.errReply (errFrame 8), CState.cCMD_ERR)) ∧
    (atypKnown b = true → b 1 ≠ 1 →
      cmdStep b = (CmdAction.errReply (errFrame 7), CState.cCMD_ERR)) ∧
    (b 0 ≠ 5 → b 1 = 1 → atypKnown b = true →
      cmdStep b = (CmdAction.errReply (errFrame 1), CState.cCMD_ERR)) := by
  refine ⟨?_, ?_, ?_⟩
  · intro h
    have he : cmdError b = 3 := by simp [cmdError, h]
    simp [cmdStep, he, repOf]
  · intro h h1
    have he : cmdError b = 2 := by simp [cmdError, h, h1]
    simp [cmdStep, he, repOf]
  · intro h0 h1 h
    have he : cmdError b = 1 := by simp [cmdError, h, h1, h0]
    simp [cmdStep, he, repOf]

/-- Witness for C10: one request per conjunct — BIND with ATYP 9 gets 0x08,
version 6 with BIND and IPv4 gets 0x07, version 6 CONNECT DOMAIN gets
0x01. -/
theorem later_check_wins_witness :
    cmdStep (requestBuf [5, 2, 0, 9] (fun _ => 0)) =
      (CmdAction.errReply (errFrame 8), CState.cCMD_ERR) ∧
    cmdStep (requestBuf [6, 2, 0, 1] (fun _ => 0)) =
      (CmdAction.errReply (errFrame 7), CState.cCMD_ERR) ∧
    cmdStep (requestBuf [6, 1, 0, 3] (fun _ => 0)) =
      (CmdAction.errReply (errFrame 1), CState.cCMD_ERR) :=
  ⟨(later_check_wins (requestBuf [5, 2, 0, 9] (fun _ => 0))).1 (by decide),
   (later_check_wins (requestBuf [6, 2, 0, 1] (fun _ => 0))).2.1 (by decide)
     (by decide),
   (later_check_wins (requestBuf [6, 1, 0, 3] (fun _ => 0))).2.2 (by decide)
     (by decide) (by decide)⟩

/-- Outcome of the client's local_write_cb in the non-relay states:
`freeNow` is `close(sock_local)` plus `mem_delete` after a short or failed
send; `lingerClose d` is entering CLOSE_WAIT with a one-shot `d`-second
timer (`ev_timer_init(w_timer, closewait_cb, 1.0, 0)`) whose callback
closes the socket and frees the CCB; the other two continue the
handshake. -/
inductive CWriteRes where
  | freeNow : CWriteRes
  | lingerClose (delaySeconds : Nat) : CWriteRes
  | toNegoSent : CWriteRes
  | toEstab : CWriteRes
deriving DecidableEq, Repr

/-- isocks.c local_write_cb for the handshake states; `none` for states the
handler asserts unreachable.  `sendOk` tells whether the queued bytes were
sent in full (`tx_bytes == conn->tx_bytes`). -/
def clientLocalWrite (st : CState) (sendOk : Bool) : Option CWriteRes :=
  match st with
  | CState.cNEGO_RCVD =>
    some (if sendOk then CWriteRes.toNegoSent else CWriteRes.freeNow)
  | CState.cNEGO_ERR =>
    some (if sendOk then CWriteRes.lingerClose 1 else CWriteRes.freeNow)
  | CState.cCMD_ERR =>
    some (if sendOk then CWriteRes.lingerClose 1 else CWriteRes.freeNow)
  | CState.cREQ_ERR =>
    some (if sendOk then CWriteRes.lingerClose 1 else CWriteRes.freeNow)
  | CState.cREP_RCVD =>
    some (if sendOk then CWriteRes.toEstab else CWriteRes.freeNow)
  | _ => none

/-- Counterexample for C8: the request `05 02 00 05 …` has command byte
0x02 (BIND) but also ATYP 0x05, and the client replies with REP 0x08, not
the claimed 0x07 — the ATYP check runs later and overwrites the command
error. -/
theorem bind_rep7_cex :
    cmdStep (requestBuf [5, 2, 0, 5] (fun _ => 0)) =
      (CmdAction.errReply (errFrame 8), CState.cCMD_ERR) ∧
    errFrame 8 ≠ errFrame 7 := by
  constructor
  · decide
  · decide

/-- Amended C8: a request whose command byte is 0x02 (BIND) or 0x03 (UDP
ASSOCIATE) and whose ATYP is one of the known values 0x01/0x03/0x04 is
answered with the 10-byte reply `05 07 00 01 00 00 00 00 00 00`; the
connection enters CMD_ERR and, once the reply is written in full, lingers 1
second in CLOSE_WAIT before closing. -/
theorem bind_udp_rep7 (b : Nat → Nat) (hcmd : b 1 = 2 ∨ b 1 = 3)
    (hatyp : atypKnown b = true) :
    cmdStep b =
      (CmdAction.errReply [5, 7, 0, 1, 0, 0, 0, 0, 0, 0], CState.cCMD_ERR) ∧
    clientLocalWrite CState.cCMD_ERR true = some (CWriteRes.lingerClose 1) := by
  have h1 : b 1 ≠ 1 := by
    rcases hcmd with h | h <;> omega
  have he : cmdError b = 2 := by
    simp [cmdError, hatyp, h1]
  exact ⟨by simp [cmdStep, he, repOf, errFrame], rfl⟩

/-- Witness for amended C8: a concrete BIND request with IPv4 ATYP. -/
theorem bind_udp_rep7_witness :
    cmdStep (requestBuf [5, 2, 0, 1, 1, 2, 3, 4, 0, 80] (fun _ => 0)) =
      (CmdAction.errReply [5, 7, 0, 1, 0, 0, 0, 0, 0, 0], CState.cCMD_ERR) ∧
    clientLocalWrite CState.cCMD_ERR true = some (CWriteRes.lingerClose 1) :=
  bind_udp_rep7 (requestBuf [5, 2, 0, 1, 1, 2, 3, 4, 0, 80] (fun _ => 0))
    (by decide) (by decide)

/-- Outcome of the server's local_write_cb in REQ_ERR and CONNECTED. -/
inductive SWriteRes where
  | freeNow : SWriteRes
  | lingerClose (delaySeconds : Nat) : SWriteRes
  | toEstab : SWriteRes
deriving DecidableEq, Repr

/-- osocks.c local_write_cb for the handshake states: a short or failed
send frees the connection; a fully sent reply leads to ESTAB from CONNECTED
and to a 1-second CLOSE_WAIT linger from REQ_ERR. -/
def serverLocalWrite (st : SState) (sendOk : Bool) : Option SWriteRes :=
  match st with
  | SState.sREQ_ERR =>
    some (if sendOk then SWriteRes.lingerClose 1 else SWriteRes.freeNow)
  | SState.sCONNECTED =>
    some (if sendOk then SWriteRes.toEstab else SWriteRes.freeNow)
  | _ => none

/-- osocks.c resolv_cb: on DNS failure the 4-byte reply of encrypted zeros
is queued and the state becomes REQ_ERR; on success the upstream dial
starts in state REQ_RCVD with nothing sent yet. -/
def resolvStep (ks : Nat → Nat) (dnsOk : Bool) : Option (List Nat) × SState :=
  if dnsOk then (none, SState.sREQ_RCVD)
  else (some (encryptWith ks (List.replicate 4 0)), SState.sREQ_ERR)

/-- Amended C3: per-connection protocol errors detected on the client (bad
SOCKS version, unsupported command, unknown ATYP) are answered with the
corresponding 10-byte SOCKS5 error reply and, once it is written, a
1-second CLOSE_WAIT linger; a server-side DNS failure is answered with the
4-byte encrypted-zeros frame followed by the same 1-second linger; but a
magic mismatch in the server's decryption of the 512-byte inner request
closes the connection immediately, sending no error frame and starting no
linger timer. -/
theorem protocol_error_paths (keystream : List Nat → Nat → Nat)
    (md5 : List Nat → List Nat) (ks : Nat → Nat) (P : List Nat)
    (b : Nat → Nat) (data : List Nat)
    (herr : cmdError b ≠ 0) (hlen : data.length = 512)
    (hmagic : ntohl ((serverPlain keystream md5 P data).take 4) ≠ MAGIC) :
    cmdStep b =
      (CmdAction.errReply (errFrame (repOf (cmdError b))), CState.cCMD_ERR) ∧
    clientLocalWrite CState.cCMD_ERR true = some (CWriteRes.lingerClose 1) ∧
    clientLocalWrite CState.cNEGO_ERR true = some (CWriteRes.lingerClose 1) ∧
    resolvStep ks false =
      (some (encryptWith ks (List.replicate 4 0)), SState.sREQ_ERR) ∧
    serverLocalWrite SState.sREQ_ERR true = some (SWriteRes.lingerClose 1) ∧
    serverClosedStep keystream md5 P data = ServerAction.closeNoReply := by
  refine ⟨?_, rfl, rfl, rfl, rfl, ?_⟩
  · simp [cmdStep, herr]
  · simp [serverClosedStep, hlen, hmagic]

/-- Witness for amended C3: a version-6 garbage request on the client and
the all-zero 512-byte frame on the server. -/
theorem protocol_error_paths_witness :
    cmdStep (requestBuf [9] (fun _ => 0)) =
      (CmdAction.errReply
        (errFrame (repOf (cmdError (requestBuf [9] (fun _ => 0))))),
       CState.cCMD_ERR) ∧
    clientLocalWrite CState.cCMD_ERR true = some (CWriteRes.lingerClose 1) ∧
    clientLocalWrite CState.cNEGO_ERR true = some (CWriteRes.lingerClose 1) ∧
    resolvStep (ks0 []) false =
      (some (encryptWith (ks0 []) (List.replicate 4 0)), SState.sREQ_ERR) ∧
    serverLocalWrite SState.sREQ_ERR true = some (SWriteRes.lingerClose 1) ∧
    serverClosedStep ks0 md5z [] (List.replicate 512 0) =
      ServerAction.closeNoReply :=
  protocol_error_paths ks0 md5z (ks0 []) [] (requestBuf [9] (fun _ => 0))
    (List.replicate 512 0) (by decide) (by simp) (by decide)

/-- Watcher and buffer-counter state of a connection during the ESTAB relay
phase.  `lr`, `lw`, `rr`, `rw` are the four ev_io registrations
(local/remote read/write watchers); the byte counts and offsets are the
ssize_t CCB fields, modelled as Int. -/
structure Relay where
  lr : Bool
  lw : Bool
  rr : Bool
  rw : Bool
  rxBytes : Int
  txBytes : Int
  rxOffset : Int
  txOffset : Int
deriving DecidableEq, Repr

/-- Result of the nonblocking send attempted inside a handler: `sent n` for
a return of `n ≥ 0` bytes, `eagain` for EAGAIN/EWOULDBLOCK, `fail` for any
other error (which makes the handler call `cleanup`). -/
inductive SendRes where
  | sent (n : Int) : SendRes
  | eagain : SendRes
  | fail : SendRes
deriving DecidableEq, Repr

/-- isocks.c local_read_cb, ESTAB case (osocks.c is identical except for
the cipher direction): recv into tx_buf, immediately try to send; EOF or a
recv/send error means `cleanup` (`none`); a full synchronous write returns
with watchers unchanged; a partial write records the offset and remaining
bytes, EAGAIN records offset 0, and both disarm the reader and arm the
remote writer. -/
def localReadEstab (s : Relay) (nRecv : Int) (w : SendRes) : Option Relay :=
  if nRecv ≤ 0 then none
  else
    match w with
    | SendRes.fail => none
    | SendRes.eagain =>
      some { s with txBytes := nRecv, txOffset := 0, lr := false, rw := true }
    | SendRes.sent n =>
      if n < nRecv then
        some { s with txBytes := nRecv - n, txOffset := n,
                      lr := false, rw := true }
      else
        some { s with txBytes := nRecv }

/-- isocks.c remote_write_cb, ESTAB case: drain
`tx_buf[tx_offset .. tx_offset+tx_bytes)`; EAGAIN leaves everything armed
as is, a partial send advances the offset, a full drain re-arms the local
reader and disarms this writer. -/
def remoteWriteEstab (s : Relay) (w : SendRes) : Option Relay :=
  match w with
  | SendRes.fail => none
  | SendRes.eagain => some s
  | SendRes.sent n =>
    if n < s.txBytes then
      some { s with txOffset := s.txOffset + n, txBytes := s.txBytes - n }
    else
      some { s with lr := true, rw := false }

/-- isocks.c remote_read_cb, ESTAB case: the mirror pipe, reading from the
remote into rx_buf and sending synchronously to the local socket. -/
def remoteReadEstab (s : Relay) (nRecv : Int) (w : SendRes) : Option Relay :=
  if nRecv ≤ 0 then none
  else
    match w with
    | SendRes.fail => none
    | SendRes.eagain =>
      some { s with rxBytes := nRecv, rxOffset := 0, rr := false, lw := true }
    | SendRes.sent n =>
      if n < nRecv then
        some { s with rxBytes := nRecv - n, rxOffset := n,
                      rr := false, lw := true }
      else
        some { s with rxBytes := nRecv }

/-- isocks.c local_write_cb, ESTAB case: drain rx_buf toward the local
socket; a full drain re-arms the remote reader and disarms this writer. -/
def localWriteEstab (s : Relay) (w : SendRes) : Option Relay :=
  match w with
  | SendRes.fail => none
  | SendRes.eagain => some s
  | SendRes.sent n =>
    if n < s.rxBytes then
      some { s with rxOffset := s.rxOffset + n, rxBytes := s.rxBytes - n }
    else
      some { s with rr := true, lw := false }

/-- The half-duplex interlock of the spec: per pipe exactly one of the
source reader and the sink writer is armed — local→remote uses `lr`/`rw`,
remote→local uses `rr`/`lw`. -/
def interlock (s : Relay) : Prop :=
  s.lr = !s.rw ∧ s.rr = !s.lw

/-- Claim C5: every completed ESTAB relay handler preserves the interlock —
a full synchronous write leaves the reader armed and the writer disarmed, a
partial write or would-block swaps reader for writer, a fully drained
writer swaps back; `none` results are `cleanup`, which destroys the CCB. -/
theorem estab_interlock (s : Relay) (hinv : interlock s) :
    (∀ m w s2, localReadEstab s m w = some s2 → interlock s2) ∧
    (∀ w s2, remoteWriteEstab s w = some s2 → interlock s2) ∧
    (∀ m w s2, remoteReadEstab s m w = some s2 → interlock s2) ∧
    (∀ w s2, localWriteEstab s w = some s2 → interlock s2) := by
  obtain ⟨h1, h2⟩ := hinv
  refine ⟨?_, ?_, ?_, ?_⟩
  · intro m w s2 h
    unfold localReadEstab at h
    split_ifs at h
    cases w with
    | sent n =>
      simp only [] at h
      split_ifs at h with hn
      · cases h
        exact ⟨rfl, h2⟩
      · cases h
        exact ⟨h1, h2⟩
    | eagain =>
      simp only [] at h
      cases h
      exact ⟨rfl, h2⟩
    | fail => exact absurd h (by simp)
  · intro w s2 h
    unfold remoteWriteEstab at h
    cases w with
    | sent n =>
      simp only [] at h
      split_ifs at h with hn
      · cases h
        exact ⟨h1, h2⟩
      · cases h
        exact ⟨rfl, h2⟩
    | eagain =>
      simp only [] at h
      cases h
      exact ⟨h1, h2⟩
    | fail => exact absurd h (by simp)
  · intro m w s2 h
    unfold remoteReadEstab at h
    split_ifs at h
    cases w with
    | sent n =>
      simp only [] at h
      split_ifs at h with hn
      · cases h
        exact ⟨h1, rfl⟩
      · cases h
        exact ⟨h1, h2⟩
    | eagain =>
      simp only [] at h
      cases h
      exact ⟨h1, rfl⟩
    | fail => exact absurd h (by simp)
  · intro w s2 h
    unfold localWriteEstab at h
    cases w with
    | sent n =>
      simp only [] at h
      split_ifs at h with hn
      · cases h
        exact ⟨h1, h2⟩
      · cases h
        exact ⟨h1, rfl⟩
    | eagain =>
      simp only [] at h
      cases h
      exact ⟨h1, h2⟩
    | fail => exact absurd h (by simp)

/-- Witness for C5: an interlocked state, a partial synchronous write, and
the interlocked successor produced by the theorem. -/
theorem estab_interlock_witness :
    interlock ⟨true, false, true, false, 0, 0, 0, 0⟩ ∧
    localReadEstab ⟨true, false, true, false, 0, 0, 0, 0⟩ 5 (SendRes.sent 2) =
      some ⟨false, false, true, true, 0, 3, 0, 2⟩ ∧
    interlock ⟨false, false, true, true, 0, 3, 0, 2⟩ :=
  ⟨⟨rfl, rfl⟩, by decide,
   (estab_interlock ⟨true, false, true, false, 0, 0, 0, 0⟩ ⟨rfl, rfl⟩).1
     5 (SendRes.sent 2) ⟨false, false, true, true, 0, 3, 0, 2⟩ (by decide)⟩

/-- The buffer-bounds invariant asserted by the claim. -/
def bufBounds (s : Relay) : Prop :=
  0 ≤ s.rxOffset ∧ 0 ≤ s.txOffset ∧
    s.rxBytes + s.rxOffset ≤ 8192 ∧ s.txBytes + s.txOffset ≤ 8192

/-- Counterexample for C6: a reachable ESTAB state left by an earlier
partial drain (8092 bytes pending behind offset 100, sum exactly 8192,
reader re-armed by a full drain, which never resets the offset) satisfies
the invariant; a legal read of 8192 bytes whose synchronous write fully
succeeds stores `tx_bytes = 8192` while leaving the stale `tx_offset = 100`
in place, and the invariant `tx_bytes + tx_offset ≤ 8192` fails. -/
theorem bufBounds_not_preserved_cex :
    bufBounds ⟨true, false, true, false, 0, 8092, 0, 100⟩ ∧
    localReadEstab ⟨true, false, true, false, 0, 8092, 0, 100⟩ 8192
      (SendRes.sent 8192) = some ⟨true, false, true, false, 0, 8192, 0, 100⟩ ∧
    ¬ bufBounds ⟨true, false, true, false, 0, 8192, 0, 100⟩ := by
  refine ⟨⟨by norm_num, by norm_num, by norm_num, by norm_num⟩, by decide, ?_⟩
  intro hb
  have habs := hb.2.2.2
  norm_num at habs

/-- Constraint on a send result: a successful send returns between 0 and
the number of bytes requested. -/
def sendLe (w : SendRes) (cap : Int) : Prop :=
  match w with
  | SendRes.sent n => 0 ≤ n ∧ n ≤ cap
  | _ => True

/-- Amended C6: the offsets stay nonnegative under every relay operation;
after a read followed by a partial send or would-block the armed-writer
bound `bytes + offset ≤ 8192` holds, and every write-side drain step
preserves it; but a read whose synchronous write fully succeeds only
guarantees `bytes ≤ 8192`, because the (unused) offset from a previous
drain is left in place. -/
theorem relay_bounds (s : Relay) :
    (∀ m w s2, 0 < m → m ≤ 8192 → sendLe w m → s.rw = false →
      0 ≤ s.txOffset → localReadEstab s m w = some s2 →
        0 ≤ s2.txOffset ∧ s2.txBytes ≤ 8192 ∧
          (s2.rw = true → s2.txBytes + s2.txOffset ≤ 8192)) ∧
    (∀ w s2, sendLe w s.txBytes → 0 ≤ s.txOffset →
      s.txBytes + s.txOffset ≤ 8192 → remoteWriteEstab s w = some s2 →
        0 ≤ s2.txOffset ∧ s2.txBytes + s2.txOffset ≤ 8192) ∧
    (∀ m w s2, 0 < m → m ≤ 8192 → sendLe w m → s.lw = false →
      0 ≤ s.rxOffset → remoteReadEstab s m w = some s2 →
        0 ≤ s2.rxOffset ∧ s2.rxBytes ≤ 8192 ∧
          (s2.lw = true → s2.rxBytes + s2.rxOffset ≤ 8192)) ∧
    (∀ w s2, sendLe w s.rxBytes → 0 ≤ s.rxOffset →
      s.rxBytes + s.rxOffset ≤ 8192 → localWriteEstab s w = some s2 →
        0 ≤ s2.rxOffset ∧ s2.rxBytes + s2.rxOffset ≤ 8192) := by
  refine ⟨?_, ?_, ?_, ?_⟩
  · intro m w s2 hm hcap hw hrw hoff h
    unfold localReadEstab at h
    split_ifs at h
    cases w with
    | sent n =>
      simp only [sendLe] at hw
      obtain ⟨hn0, hncap⟩ := hw
      simp only [] at h
      split_ifs at h with hn
      · cases h
        refine ⟨by dsimp only; omega, by dsimp only; omega, fun _ => ?_⟩
        dsimp only
        omega
      · cases h
        refine ⟨hoff, by dsimp only; omega, fun habs => ?_⟩
        dsimp only at habs
        rw [habs] at hrw
        exact absurd hrw (by simp)
    | eagain =>
      simp only [] at h
      cases h
      refine ⟨by norm_num, by dsimp only; omega, fun _ => ?_⟩
      dsimp only
      omega
    | fail => exact absurd h (by simp)
  · intro w s2 hw hoff hsum h
    unfold remoteWriteEstab at h
    cases w with
    | sent n =>
      simp only [sendLe] at hw
      obtain ⟨hn0, hncap⟩ := hw
      simp only [] at h
      split_ifs at h with hn
      · cases h
        exact ⟨by dsimp only; omega, by dsimp only; omega⟩
      · cases h
        exact ⟨hoff, hsum⟩
    | eagain =>
      simp only [] at h
      cases h
      exact ⟨hoff, hsum⟩
    | fail => exact absurd h (by simp)
  · intro m w s2 hm hcap hw hlw hoff h
    unfold remoteReadEstab at h
    split_ifs at h
    cases w with
    | sent n =>
      simp only [sendLe] at hw
      obtain ⟨hn0, hncap⟩ := hw
      simp only [] at h
      split_ifs at h with hn
      · cases h
        refine ⟨by dsimp only; omega, by dsimp only; omega, fun _ => ?_⟩
        dsimp only
        omega
      · cases h
        refine ⟨hoff, by dsimp only; omega, fun habs => ?_⟩
        dsimp only at habs
        rw [habs] at hlw
        exact absurd hlw (by simp)
    | eagain =>
      simp only [] at h
      cases h
      refine ⟨by norm_num, by dsimp only; omega, fun _ => ?_⟩
      dsimp only
      omega
    | fail => exact absurd h (by simp)
  · intro w s2 hw hoff hsum h
    unfold localWriteEstab at h
    cases w with
    | sent n =>
      simp only [sendLe] at hw
      obtain ⟨hn0, hncap⟩ := hw
      simp only [] at h
      split_ifs at h with hn
      · cases h
        exact ⟨by dsimp only; omega, by dsimp only; omega⟩
      · cases h
        exact ⟨hoff, hsum⟩
    | eagain =>
      simp only [] at h
      cases h
      exact ⟨hoff, hsum⟩
    | fail => exact absurd h (by simp)

/-- Witness for amended C6: a drain step over a buffer holding 10 bytes at
offset 2 that sends 4 of them. -/
theorem relay_bounds_witness :
    0 ≤ (Relay.mk false false false true 0 6 0 6).txOffset ∧
    (Relay.mk false false false true 0 6 0 6).txBytes +
      (Relay.mk false false false true 0 6 0 6).txOffset ≤ 8192 :=
  (relay_bounds ⟨false, false, false, true, 0, 10, 0, 2⟩).2.1
    (SendRes.sent 4) ⟨false, false, false, true, 0, 6, 0, 6⟩
    ⟨by decide, by decide⟩ (by decide) (by decide) (by decide)

/-- Upstream server selection (isocks.c lines 499-502): a fresh unsigned
int drawn from /dev/urandom, reduced modulo the number of configured
servers. -/
def selectServer (u server_num : Nat) : Nat :=
  u % server_num

/-- The 32-bit values of the random draw that select index `i`. -/
def selectPreimages (server_num i : Nat) : Finset Nat :=
  (Finset.range (2 ^ 32)).filter (fun u => selectServer u server_num = i)

theorem selectPreimages_card (n i : Nat) (hn : 0 < n) (hi : i < n) :
    (selectPreimages n i).card =
      2 ^ 32 / n + if i < 2 ^ 32 % n then 1 else 0 := by
  have hfil : selectPreimages n i =
      (Finset.range (2 ^ 32)).filter (fun u => u ≡ i [MOD n]) := by
    unfold selectPreimages selectServer
    apply Finset.filter_congr
    intro u _
    simp [Nat.ModEq, Nat.mod_eq_of_lt hi]
  rw [hfil, ← Nat.count_eq_card_filter_range,
    Nat.count_modEq_card _ hn, Nat.mod_eq_of_lt hi]

/-- Counterexample for C7: with three configured servers the selected index
is not the image of equally many 32-bit values — 2^32 is not divisible by
3, so index 0 has one more preimage than index 1. -/
theorem select_nonuniform_cex :
    (selectPreimages 3 0).card ≠ (selectPreimages 3 1).card := by
  rw [selectPreimages_card 3 0 (by decide) (by decide),
    selectPreimages_card 3 1 (by decide) (by decide)]
  decide

/-- Amended C7: the index `u % server_num` of a uniform 32-bit draw `u` has
preimage count `2^32 / server_num`, plus one for the first
`2^32 mod server_num` indices; the distribution is exactly uniform
precisely when `server_num` divides `2^32` (e.g. any power of two), and is
otherwise uniform only up to a one-in-2^32 bias. -/
theorem select_distribution (n i : Nat) (hn : 0 < n) (hi : i < n) :
    (selectPreimages n i).card =
      2 ^ 32 / n + (if i < 2 ^ 32 % n then 1 else 0) ∧
    (n ∣ 2 ^ 32 → (selectPreimages n i).card = 2 ^ 32 / n) := by
  refine ⟨selectPreimages_card n i hn hi, fun hdvd => ?_⟩
  have hmod : 2 ^ 32 % n = 0 := Nat.mod_eq_zero_of_dvd hdvd
  rw [selectPreimages_card n i hn hi, hmod]
  simp

/-- Witness for amended C7: four servers, index 2. -/
theorem select_distribution_witness :
    (selectPreimages 4 2).card =
      2 ^ 32 / 4 + (if 2 < 2 ^ 32 % 4 then 1 else 0) ∧
    (4 ∣ 2 ^ 32 → (selectPreimages 4 2).card = 2 ^ 32 / 4) :=
  select_distribution 4 2 (by decide) (by decide)

end IoSocks
